import Mathlib

/-!
Verification development for the core of a WhatsApp Web client library
(Baileys fork).  The definitions below are shallow embeddings of:

  * `src/Utils/auth-utils.ts` — the transactional key store
    (`addTransactionCapability`), pre-key generation (`generateOrGetPreKeys`,
    `getNextPreKeys`) and USync response parsing (`processDevice`,
    `processItem`, `extractDeviceJids`);
  * `src/Socket/messages-send.ts` — `getUSyncDevices`,
    `createParticipantNodes` and the group/status branch of `relayMessage`;
  * `WASignalGroup/queue_job.js` — the per-bucket job queue executor.

JavaScript objects used as string-keyed dictionaries are embedded as
association lists in insertion order; JavaScript numbers appearing in JID
device positions are embedded as `JsNum` (an integer, `NaN`, or
`undefined`) so that the strict-equality (`===`) and truthiness tests of
the source translate exactly.
-/

set_option autoImplicit false

namespace Baileys

/-- Association-list lookup: the value stored under string key `k`
(JS `obj[k]`, `none` = `undefined`). -/
def alook {α : Type} : List (String × α) → String → Option α
  | [], _ => none
  | (k', v) :: rest, k => if k' = k then some v else alook rest k

/-- Association-list assignment (JS `obj[k] = v`): overwrite in place if the
key exists, otherwise append (JS objects keep insertion order). -/
def aset {α : Type} : List (String × α) → String → α → List (String × α)
  | [], k, v => [(k, v)]
  | (k', v') :: rest, k, v =>
    if k' = k then (k', v) :: rest else (k', v') :: aset rest k v

/-- Helper for `dedupFirst`: drop elements already seen. -/
def dedupFirstAux (seen : List String) : List String → List String
  | [] => []
  | x :: rest =>
    if x ∈ seen then dedupFirstAux seen rest
    else x :: dedupFirstAux (x :: seen) rest

/-- `Array.from(new Set(xs))`: deduplicate keeping the first occurrence of
each element, preserving order. -/
def dedupFirst (l : List String) : List String :=
  dedupFirstAux [] l

@[simp]
theorem alook_nil {α : Type} (k : String) : alook ([] : List (String × α)) k = none := rfl

@[simp]
theorem alook_cons {α : Type} (k' k : String) (v : α) (rest : List (String × α)) :
    alook ((k', v) :: rest) k = if k' = k then some v else alook rest k := rfl

@[simp]
theorem aset_nil {α : Type} (k : String) (v : α) :
    aset ([] : List (String × α)) k v = [(k, v)] := rfl

@[simp]
theorem aset_cons {α : Type} (k' k : String) (v' v : α) (rest : List (String × α)) :
    aset ((k', v') :: rest) k v =
      if k' = k then (k', v) :: rest else (k', v') :: aset rest k v := rfl

theorem aset_ne_nil {α : Type} (l : List (String × α)) (k : String) (v : α) :
    aset l k v ≠ [] := by
  cases l with
  | nil => simp [aset]
  | cons hd tl =>
    obtain ⟨k', v'⟩ := hd
    by_cases h : k' = k <;> simp [aset, h]

theorem alook_aset_self {α : Type} (l : List (String × α)) (k : String) (v : α) :
    alook (aset l k v) k = some v := by
  induction l with
  | nil => simp
  | cons hd tl ih =>
    obtain ⟨k', v'⟩ := hd
    by_cases h : k' = k <;> simp [h, ih]

theorem alook_aset_ne {α : Type} (l : List (String × α)) (k k' : String) (v : α)
    (h : k ≠ k') : alook (aset l k v) k' = alook l k' := by
  induction l with
  | nil => simp [h]
  | cons hd tl ih =>
    obtain ⟨k₀, v₀⟩ := hd
    by_cases h0 : k₀ = k
    · subst h0
      simp [h]
    · simp [h0, ih]

/-! ## Pre-key generation (`src/Utils/auth-utils.ts`, lines 260–276 and 374–387)

The key material itself (Curve25519 key pairs) is irrelevant to the claims,
which are about the *ids* generated and the store traffic; the embedding
tracks the ids.  JavaScript integer arithmetic on these small counters is
exact, so `Int` is a faithful carrier. -/

/-- The list of integers `lo, lo+1, …, hi-1`. -/
def intRange (lo hi : Int) : List Int :=
  (List.range (hi - lo).toNat).map (fun (k : Nat) => lo + (k : Int))

/-- Result of `generateOrGetPreKeys` with key-pair values elided: the ids of
the freshly generated pre-keys, the computed `lastPreKeyId`, and
`preKeysRange = [firstUnuploadedPreKeyId, range]`. -/
structure PreKeysGen where
  newPreKeyIds : List Int
  lastPreKeyId : Int
  preKeysRangeStart : Int
  preKeysRangeLen : Int
  deriving Repr, DecidableEq

/-- `generateOrGetPreKeys(creds, range)` from `auth-utils.ts`:
`avaliable = nextPreKeyId - firstUnuploadedPreKeyId`,
`remaining = range - avaliable`, `lastPreKeyId = nextPreKeyId + remaining - 1`,
and new keys are generated for ids `nextPreKeyId .. lastPreKeyId` when
`remaining > 0`. -/
def generateOrGetPreKeys (nextPreKeyId firstUnuploadedPreKeyId range : Int) : PreKeysGen :=
  let avaliable := nextPreKeyId - firstUnuploadedPreKeyId
  let remaining := range - avaliable
  let lastPreKeyId := nextPreKeyId + remaining - 1
  { newPreKeyIds := if remaining > 0 then intRange nextPreKeyId (lastPreKeyId + 1) else []
    lastPreKeyId := lastPreKeyId
    preKeysRangeStart := firstUnuploadedPreKeyId
    preKeysRangeLen := range }

/-- Result of `getNextPreKeys` with values elided: the creds update and the
key-store traffic it performed (each `keys.set({'pre-key': …})` batch as the
list of ids written, and the id list requested through `getPreKeys`). -/
structure NextPreKeysRun where
  updNextPreKeyId : Int
  updFirstUnuploadedPreKeyId : Int
  preKeyWriteBatches : List (List Int)
  preKeyReadIds : List Int
  deriving Repr, DecidableEq

/-- `getNextPreKeys({creds, keys}, count)` from `auth-utils.ts`: generates or
reuses pre-keys, updates both counters with `Math.max`, performs a single
`keys.set({'pre-key': newPreKeys})`, then reads back
`getPreKeys(keys, preKeysRange[0], preKeysRange[0] + preKeysRange[1])`
(whose id list is `[min, limit)`). -/
def getNextPreKeys (nextPreKeyId firstUnuploadedPreKeyId count : Int) : NextPreKeysRun :=
  let g := generateOrGetPreKeys nextPreKeyId firstUnuploadedPreKeyId count
  { updNextPreKeyId := max (g.lastPreKeyId + 1) nextPreKeyId
    updFirstUnuploadedPreKeyId := max firstUnuploadedPreKeyId (g.lastPreKeyId + 1)
    preKeyWriteBatches := [g.newPreKeyIds]
    preKeyReadIds := intRange g.preKeysRangeStart (g.preKeysRangeStart + g.preKeysRangeLen) }

/-! ## JavaScript numbers in device position

`processDevice` computes `const device = +attrs.id` and compares it with
`===`/`!==` against `0` and against `myDevice` (which `jidDecode` may leave
`undefined`).  `JsNum` carries exactly the values that can appear there:
an integer, `NaN` (the result of unary `+` on a non-numeric string), or
`undefined`. -/

inductive JsNum where
  | num (i : Int)
  | nan
  | undef
  deriving Repr, DecidableEq

/-- JavaScript strict equality `===` on `JsNum`: `NaN` equals nothing
(including itself); `undefined` equals only `undefined`. -/
def jsStrictEq : JsNum → JsNum → Bool
  | .num a, .num b => a == b
  | .undef, .undef => true
  | _, _ => false

/-- JavaScript truthiness of a `JsNum`: `0`, `NaN` and `undefined` are falsy. -/
def jsTruthy : JsNum → Bool
  | .num i => i != 0
  | _ => false

/-- The numeric value of a decimal digit character. -/
def digitVal (c : Char) : Option Nat :=
  if c.isDigit then some (c.toNat - 48) else none

/-- Parse a non-empty all-digit character list as a natural number
(left-to-right positional accumulation); `none` otherwise. -/
def digitsToNat? (cs : List Char) : Option Nat :=
  if cs = [] then none
  else
    cs.foldl
      (fun acc c =>
        match acc, digitVal c with
        | some a, some d => some (a * 10 + d)
        | _, _ => none)
      (some 0)

/-- JavaScript unary `+` applied to an attribute value (`+attrs.id`):
a missing attribute (`undefined`) gives `NaN`, the empty string gives `0`,
a decimal-digit string gives its value, anything else gives `NaN`. -/
def jsPlus : Option String → JsNum
  | none => .nan
  | some s =>
    if s.data = [] then .num 0
    else
      match digitsToNat? s.data with
      | some n => .num (n : Int)
      | none => .nan

/-- JavaScript `String(n)` for the numbers that can reach `jidEncode`. -/
def jsNumToString : JsNum → String
  | .num i => toString i
  | .nan => "NaN"
  | .undef => "undefined"

/-- JavaScript truthiness of a possibly-missing string attribute
(`!!attrs['key-index']`): missing and `""` are falsy. -/
def truthyStr : Option String → Bool
  | some s => s ≠ ""
  | none => false

/-! ## BinaryNode (`src` data model §3)

`{ tag, attrs, content : bytes | BinaryNode[] | null }`. -/

mutual

inductive BinaryNode where
  | mk (tag : String) (attrs : List (String × String)) (content : NodeContent)

inductive NodeContent where
  | nullc
  | bytes (bs : List Nat)
  | nodes (ns : List BinaryNode)

end

def BinaryNode.tag : BinaryNode → String
  | .mk t _ _ => t

def BinaryNode.attrs : BinaryNode → List (String × String)
  | .mk _ a _ => a

def BinaryNode.content : BinaryNode → NodeContent
  | .mk _ _ c => c

/-- The child-node list of a content value (`[]` when the content is not a
node array, matching the `Array.isArray` guards in the source). -/
def nodeChildren : NodeContent → List BinaryNode
  | .nodes ns => ns
  | _ => []

/-- Modelled from the spec: `getBinaryNodeChild` from the `WABinary` module
(its source is not under `src/`): the first child carrying the given tag, or
`undefined` when the node is absent or its content is not a node array. -/
def getBinaryNodeChild (node : Option BinaryNode) (tag : String) : Option BinaryNode :=
  match node with
  | some n => (nodeChildren n.content).find? (fun c => c.tag == tag)
  | none => none

/-! ## JIDs (spec §3, "JID forms") -/

structure JidParts where
  user : String
  device : JsNum
  server : String
  deriving Repr, DecidableEq

/-- Split a character list at every occurrence of `c` (like
`String.splitOn` for a one-character separator). -/
def splitOnChar (c : Char) : List Char → List (List Char)
  | [] => [[]]
  | x :: rest =>
    let r := splitOnChar c rest
    if x = c then [] :: r
    else
      match r with
      | s :: ss => (x :: s) :: ss
      | [] => [[x]]

/-- Modelled from the spec: `jidDecode` from the `WABinary` module (its
source is not under `src/`).  Per the spec it "yields
`{user, server, device?, agent?}`" for the JID forms `user@server` and
`user:device@server`; a string without exactly one `@` does not decode, and
a missing or empty device part is `undefined`. -/
def jidDecode (jid : String) : Option JidParts :=
  match splitOnChar '@' jid.data with
  | [userPart, server] =>
    match splitOnChar ':' userPart with
    | [user] => some ⟨String.mk user, .undef, String.mk server⟩
    | [user, dev] =>
      if dev = [] then some ⟨String.mk user, .undef, String.mk server⟩
      else some ⟨String.mk user, jsPlus (some (String.mk dev)), String.mk server⟩
    | _ => none
  | _ => none

/-- Modelled from the spec: `jidEncode(user, server, device?)` from the
`WABinary` module: `user:device@server` when the device is truthy
(non-zero, not `NaN`, not `undefined`), else `user@server`. -/
def jidEncode (user server : String) (device : JsNum) : String :=
  user ++ (if jsTruthy device then ":" ++ jsNumToString device else "") ++ "@" ++ server

/-- Modelled from the spec: `jidNormalizedUser` from the `WABinary` module:
the bare-user form of a JID (device suffix dropped); returned unchanged when
the input does not decode. -/
def jidNormalizedUser (jid : String) : String :=
  match jidDecode jid with
  | some p => jidEncode p.user p.server .undef
  | none => jid

/-- A `(user, device)` pair as produced by `extractDeviceJids`. -/
structure JidWithDevice where
  user : String
  device : JsNum
  deriving Repr, DecidableEq

/-! ## USync response parsing (`src/Utils/auth-utils.ts`, lines 214–249 and 349–367) -/

/-- The retention condition of `processDevice`:
`tag === 'device' && (!excludeZeroDevices || device !== 0) &&
(myUser !== user || myDevice !== device) && (device === 0 || !!attrs['key-index'])`. -/
def deviceKeepCond (tag : String) (attrs : List (String × String)) (user myUser : String)
    (myDevice : JsNum) (excludeZeroDevices : Bool) : Prop :=
  let device := jsPlus (alook attrs "id")
  tag = "device" ∧
    (excludeZeroDevices = false ∨ jsStrictEq device (.num 0) = false) ∧
    (myUser ≠ user ∨ jsStrictEq myDevice device = false) ∧
    (jsStrictEq device (.num 0) = true ∨ truthyStr (alook attrs "key-index") = true)

instance deviceKeepCond.decidable (tag : String) (attrs : List (String × String))
    (user myUser : String) (myDevice : JsNum) (excludeZeroDevices : Bool) :
    Decidable (deviceKeepCond tag attrs user myUser myDevice excludeZeroDevices) := by
  unfold deviceKeepCond
  infer_instance

/-- `processDevice` from `auth-utils.ts`: push `{user, device}` onto
`extracted` when the retention condition holds. -/
def processDevice (tag : String) (attrs : List (String × String)) (user myUser : String)
    (myDevice : JsNum) (excludeZeroDevices : Bool) (extracted : List JidWithDevice) :
    List JidWithDevice :=
  if deviceKeepCond tag attrs user myUser myDevice excludeZeroDevices then
    extracted ++ [⟨user, jsPlus (alook attrs "id")⟩]
  else
    extracted

/-- The device-descriptor nodes of one `user` item:
`getBinaryNodeChild(getBinaryNodeChild(item, 'devices'), 'device-list')`,
iterated only when its content is a node array. -/
def deviceListOf (item : BinaryNode) : List BinaryNode :=
  match getBinaryNodeChild (getBinaryNodeChild (some item) "devices") "device-list" with
  | some dl => nodeChildren dl.content
  | none => []

/-- `processItem` from `auth-utils.ts`: decode the item's `jid` attribute
(`jidDecode(item.attrs.jid)!` throws — `none` — when it does not decode) and
run `processDevice` over every entry of the `device-list`. -/
def processItem (item : BinaryNode) (myUser : String) (myDevice : JsNum)
    (excludeZeroDevices : Bool) (extracted : List JidWithDevice) :
    Option (List JidWithDevice) :=
  match jidDecode ((alook item.attrs "jid").getD "") with
  | none => none
  | some p =>
    some ((deviceListOf item).foldl
      (fun acc c => processDevice c.tag c.attrs p.user myUser myDevice excludeZeroDevices acc)
      extracted)

/-- The items of a response child's `list` node (iterated only when the
content is a node array). -/
def listItemsOf (node : BinaryNode) : List BinaryNode :=
  match getBinaryNodeChild (some node) "list" with
  | some ln => nodeChildren ln.content
  | none => []

/-- `extractDeviceJids` from `auth-utils.ts`: decode `myJid`
(`jidDecode(myJid)!`), then walk `result.content`, each child's `list`
items, and each item's `device-list`, accumulating pairs through
`processItem`/`processDevice`.  `none` models the thrown `TypeError` when
`myJid` or an item `jid` does not decode, or when `result.content` is not a
node array. -/
def extractDeviceJids (result : BinaryNode) (myJid : String) (excludeZeroDevices : Bool) :
    Option (List JidWithDevice) :=
  match jidDecode myJid with
  | none => none
  | some me =>
    match result.content with
    | .nodes ns =>
      ns.foldlM
        (fun acc node =>
          (listItemsOf node).foldlM
            (fun acc2 item => processItem item me.user me.device excludeZeroDevices acc2)
            acc)
        []
    | _ => none

/-- All device descriptors reachable in a USync response, flattened:
`(item jid attribute, descriptor tag, descriptor attrs)` triples. -/
def deviceDescriptors (result : BinaryNode) : List (String × String × List (String × String)) :=
  (nodeChildren result.content).flatMap fun node =>
    (listItemsOf node).flatMap fun item =>
      (deviceListOf item).map fun d => ((alook item.attrs "jid").getD "", d.tag, d.attrs)

/-! ## Transactional key store (`src/Utils/auth-utils.ts`, lines 85–173)

Stored values are objects (truthy) or `null` (falsy, used for deletion);
the numeric payload of `vobj` is an arbitrary tag standing for the opaque
key material.  The underlying `SignalKeyStore` is modelled as a `Store`
carrying its data, a schedule of success/failure outcomes for successive
`set` calls (`[]` = always succeed), and logs of the `get`/`set` traffic. -/

inductive SVal where
  | vnull
  | vobj (n : Nat)
  deriving Repr, DecidableEq

/-- JS truthiness of a stored value (the `if(value)` filter in the
transaction-layer `get`). -/
def svTruthy : SVal → Bool
  | .vnull => false
  | .vobj _ => true

/-- An id→value dictionary for one data type. -/
abbrev TypeMap := List (String × SVal)

/-- A type→(id→value) dictionary (`SignalDataSet`). -/
abbrev SignalDataSet := List (String × TypeMap)

/-- JS spread merge `{...a, ...b}` on id→value dictionaries. -/
def mergeTM (a b : TypeMap) : TypeMap :=
  b.foldl (fun acc kv => aset acc kv.1 kv.2) a

/-- `base[key] = {...base[key], ...payload[key]}` for every type key of
`payload` (the shape of both `transactionCache` and `mutations` updates). -/
def mergeDS (base payload : SignalDataSet) : SignalDataSet :=
  payload.foldl (fun acc kv => aset acc kv.1 (mergeTM ((alook acc kv.1).getD []) kv.2)) base

structure Store where
  data : SignalDataSet
  setSchedule : List Bool
  getLog : List (String × List String)
  setLog : List SignalDataSet
  deriving Repr, DecidableEq

/-- Underlying `store.get(type, ids)`: return the present entries, log the
query. -/
def storeGet (s : Store) (ty : String) (ids : List String) : TypeMap × Store :=
  let res := ids.foldl
    (fun acc id =>
      match alook ((alook s.data ty).getD []) id with
      | some v => acc ++ [(id, v)]
      | none => acc)
    []
  (res, { s with getLog := s.getLog ++ [(ty, ids)] })

/-- Underlying `store.set(data)`: log the payload, consume the next outcome
of the schedule (`true` when exhausted), and merge the payload into the data
on success.  The `Bool` is `false` when the call threw. -/
def storeSet (s : Store) (payload : SignalDataSet) : Store × Bool :=
  let ok := s.setSchedule.headD true
  ({ s with
      data := if ok then mergeDS s.data payload else s.data
      setSchedule := s.setSchedule.tail
      setLog := s.setLog ++ [payload] },
    ok)

/-- The module-level state of `addTransactionCapability`: the wrapped store
plus `transactionCache`, `mutations` and `dbQueriesInTransaction`. -/
structure TxModule where
  store : Store
  transactionCache : SignalDataSet
  mutations : SignalDataSet
  dbQueriesInTransaction : Nat
  deriving Repr, DecidableEq

/-- The in-transaction `get(type, ids)` (lines 100–118): ids already in
`transactionCache[type]` (even with falsy values) are not fetched; missing
ids are fetched from the underlying store in one batch and merged in; the
returned dictionary keeps only ids whose cached value is truthy. -/
def txGet (m : TxModule) (ty : String) (ids : List String) : TypeMap × TxModule :=
  let dict := (alook m.transactionCache ty).getD []
  let idsRequiringFetch := ids.filter (fun id => (alook dict id).isNone)
  let m1 :=
    if idsRequiringFetch.isEmpty then m
    else
      let (fetched, store') := storeGet m.store ty idsRequiringFetch
      { m with
          store := store'
          dbQueriesInTransaction := m.dbQueriesInTransaction + 1
          transactionCache := aset m.transactionCache ty (mergeTM dict fetched) }
  let res := ids.foldl
    (fun acc id =>
      match alook ((alook m1.transactionCache ty).getD []) id with
      | some v => if svTruthy v then acc ++ [(id, v)] else acc
      | none => acc)
    []
  (res, m1)

/-- One step of a transaction workload: an in-transaction `get`, an
in-transaction `set`, or a thrown error. -/
inductive Op where
  | get (ty : String) (ids : List String)
  | set (data : SignalDataSet)
  | fail
  deriving Repr, DecidableEq

def Op.isFail : Op → Bool
  | .fail => true
  | _ => false

structure OpsRun where
  module : TxModule
  threw : Bool
  getResults : List TypeMap
  deriving Repr, DecidableEq

/-- Run a workload inside the transaction: `get` through `txGet`, `set` into
`transactionCache` and `mutations` only (lines 124–129), stopping at the
first thrown error. -/
def runOps : List Op → TxModule → OpsRun
  | [], m => ⟨m, false, []⟩
  | .fail :: _, m => ⟨m, true, []⟩
  | .get ty ids :: rest, m =>
    let r0 := txGet m ty ids
    let r := runOps rest r0.2
    { r with getResults := r0.1 :: r.getResults }
  | .set d :: rest, m =>
    runOps rest
      { m with
          transactionCache := mergeDS m.transactionCache d
          mutations := mergeDS m.mutations d }

/-- The commit retry loop (lines 146–157): up to `tries` calls of the
underlying `set(mutations)`, stopping at the first success; a failure after
the last try is *not* re-raised (the `catch` swallows it). -/
def commitLoop : Nat → SignalDataSet → Store → Store
  | 0, _, s => s
  | tries + 1, muts, s =>
    let r := storeSet s muts
    if r.2 then r.1 else commitLoop tries muts r.1

structure TxRun where
  module : TxModule
  threw : Bool
  getResults : List TypeMap
  deriving Repr, DecidableEq

/-- `transaction(work)` (lines 135–171) at the outermost level
(`transactionsInProgress` 0 → 1 → 0): run the workload; if it completed and
`mutations` is non-empty, commit with retries; the `finally` clears
`transactionCache`, `mutations` and `dbQueriesInTransaction`, and a workload
error is re-raised to the caller (`threw`). -/
def transaction (m : TxModule) (work : List Op) (maxCommitRetries : Nat) : TxRun :=
  let r := runOps work m
  let store' :=
    if r.threw = false ∧ r.module.mutations ≠ [] then
      commitLoop maxCommitRetries r.module.mutations r.module.store
    else r.module.store
  { module :=
      { store := store'
        transactionCache := []
        mutations := []
        dbQueriesInTransaction := 0 }
    threw := r.threw
    getResults := r.getResults }

/-! ## `getUSyncDevices` (`src/Socket/messages-send.ts`, lines 188–264)

The single `iq/usync` round trip is an external effect: the response node is
passed in as `queryResponse` and the run records whether the query was
issued and which `user` nodes it carried. -/

structure USyncRun where
  deviceResults : List JidWithDevice
  queriedJids : List String
  queryIssued : Bool
  newCache : List (String × List JidWithDevice)
  deriving Repr, DecidableEq

/-- The cached device list serving a given input JID:
`userDevicesCache.get(jidDecode(jid)?.user)`. -/
def cacheServed (cache : List (String × List JidWithDevice)) (jid : String) :
    Option (List JidWithDevice) :=
  ((jidDecode jid).map (·.user)).bind (alook cache)

/-- One iteration of the `getUSyncDevices` input loop: a cached user (when
`useCache`) extends `deviceResults`, anyone else contributes a normalized
`user` node to the pending query. -/
def uSyncStep (useCache : Bool) (cache : List (String × List JidWithDevice))
    (acc : List JidWithDevice × List String) (jid : String) :
    List JidWithDevice × List String :=
  match cacheServed cache jid with
  | some ds =>
    if useCache then (acc.1 ++ ds, acc.2)
    else (acc.1, acc.2 ++ [jidNormalizedUser jid])
  | none => (acc.1, acc.2 ++ [jidNormalizedUser jid])

/-- `getUSyncDevices(jids, useCache, ignoreZeroDevices)`: deduplicate the
input with `new Set(jids)` (by exact string), serve cached users when
`useCache`, collect the normalized JIDs of the rest as `user` nodes, and
when any exist issue the single usync query, extract the device pairs,
append them to the results and refresh the per-user cache.  `none` models
the `TypeError` thrown inside `extractDeviceJids`. -/
def getUSyncDevices (jids : List String) (useCache ignoreZeroDevices : Bool)
    (cache : List (String × List JidWithDevice)) (queryResponse : BinaryNode)
    (meId : String) : Option USyncRun :=
  let start : List JidWithDevice × List String := ([], [])
  let split := (dedupFirst jids).foldl (uSyncStep useCache cache) start
  if split.2.isEmpty then
    some
      { deviceResults := split.1
        queriedJids := []
        queryIssued := false
        newCache := cache }
  else
    match extractDeviceJids queryResponse meId ignoreZeroDevices with
    | none => none
    | some extracted =>
      let deviceMap := extracted.foldl
        (fun dm p => aset dm p.user (((alook dm p.user).getD []) ++ [p])) []
      some
        { deviceResults := split.1 ++ extracted
          queriedJids := split.2
          queryIssued := true
          newCache := deviceMap.foldl (fun c kv => aset c kv.1 kv.2) cache }

/-! ## `relayMessage`, group/status branch
(`src/Socket/messages-send.ts`, lines 383–500 and 565–601)

The Signal repository, the patch hook, protobuf encoding, and
`getUSyncDevices` (verified separately above) are external collaborators
here: their outputs are oracle fields of `RelayEnv`.  `encCipherOf j` stands
for `encryptMessage` applied to the sender-key-distribution payload for
recipient `j`, and `skmsgCipher` for the `encryptGroupMessage` ciphertext. -/

structure RelayEnv where
  encTypeOf : String → String
  encCipherOf : String → List Nat
  skmsgCipher : List Nat
  groupParticipants : List String
  usync : List String → List JidWithDevice
  extraAttrs : List (String × String)

/-- A group's sender-key-memory row: device JID → flag. -/
abbrev SenderKeyMap := List (String × Bool)

/-- The `sender-key-memory` space of the key store: group JID → row. -/
abbrev SenderKeyMemoryStore := List (String × SenderKeyMap)

/-- `createParticipantNodes(jids, message, extraAttrs)`: one
`<to jid=…><enc v="2" type=…>ciphertext</enc></to>` node per JID, and the
`shouldIncludeDeviceIdentity` flag (set when any encryption was a `pkmsg`). -/
def createParticipantNodes (env : RelayEnv) (jids : List String) :
    List BinaryNode × Bool :=
  (jids.map fun j =>
      BinaryNode.mk "to" [("jid", j)]
        (.nodes [BinaryNode.mk "enc"
          ([("v", "2"), ("type", env.encTypeOf j)] ++ env.extraAttrs)
          (.bytes (env.encCipherOf j))]),
    jids.any fun j => env.encTypeOf j == "pkmsg")

/-- One step of the `senderKeyJids` selection loop of `relayMessage`
(lines 470–476): encode the device JID; when its `sender-key-memory` entry
is falsy or a `participant` forces a re-send, append it to `senderKeyJids`
and mark it `true` in the map. -/
def senderKeyStep (devServer : String) (hasParticipant : Bool)
    (acc : List String × SenderKeyMap) (d : JidWithDevice) :
    List String × SenderKeyMap :=
  let j := jidEncode d.user devServer d.device
  if alook acc.2 j ≠ some true ∨ hasParticipant = true then
    (acc.1 ++ [j], aset acc.2 j true)
  else acc

/-- Mark every JID of `js` as `true` in a sender-key map. -/
def markAll (m : SenderKeyMap) (js : List String) : SenderKeyMap :=
  js.foldl (fun m' j => aset m' j true) m

/-- The device JID encoding used in the non-lid group path:
`jidEncode(user, 's.whatsapp.net', device)`. -/
def encDev (d : JidWithDevice) : String :=
  jidEncode d.user "s.whatsapp.net" d.device

structure GroupRelayRun where
  content : List BinaryNode
  senderKeyJids : List String
  senderKeyMemory : SenderKeyMemoryStore
  readSenderKeyMemory : Bool

def statusJid : String := "status@broadcast"

/-- The `isGroup || isStatus` branch of `relayMessage` plus the stanza
content assembly: read `sender-key-memory[jid]` only when no `participant`
is given and the destination is not status; gather the audience (the given
`participant`, or the group participants / `statusJidList` expanded through
`getUSyncDevices`); select `senderKeyJids` (devices whose memory entry is
falsy, or all of them when `participant` forces a re-send) and mark them
`true`; build the `<to>` SKDM recipient nodes and the top-level
`<enc type="skmsg">` node; finally write the updated row back with
`keys.set({'sender-key-memory': {[jid]: senderKeyMap}})` — unconditionally
in this branch.  `none` models the throw on an undecodable `jid`. -/
def relayMessageGroupStatus (env : RelayEnv) (jid : String)
    (participant : Option JidWithDevice) (statusJidList : List String)
    (store : SenderKeyMemoryStore) : Option GroupRelayRun :=
  match jidDecode jid with
  | none => none
  | some parts =>
    let isStatus := jid == statusJid
    let isLid := parts.server == "lid"
    let devServer := if isLid then "lid" else "s.whatsapp.net"
    let senderKeyMap0 : SenderKeyMap :=
      if participant.isNone && !isStatus then (alook store jid).getD [] else []
    let devices : List JidWithDevice :=
      (match participant with
        | some p => [p]
        | none => []) ++
      (if participant.isNone then
          env.usync
            ((if !isStatus then env.groupParticipants else []) ++
              (if isStatus then statusJidList else []))
        else [])
    let fold := devices.foldl (senderKeyStep devServer participant.isSome)
      ([], senderKeyMap0)
    let participantNodes :=
      if fold.1 ≠ [] then (createParticipantNodes env fold.1).1 else []
    some
      { content :=
          [BinaryNode.mk "enc" [("v", "2"), ("type", "skmsg")] (.bytes env.skmsgCipher)] ++
          (if participantNodes.isEmpty then []
            else [BinaryNode.mk "participants" [] (.nodes participantNodes)])
        senderKeyJids := fold.1
        senderKeyMemory := aset store jid fold.2
        readSenderKeyMemory := participant.isNone && !isStatus }

/-- The number of top-level `<enc type="skmsg">` children in a stanza
content list. -/
def countEncSkmsg (content : List BinaryNode) : Nat :=
  (content.filter fun n => n.tag == "enc" && (alook n.attrs "type" == some "skmsg")).length

/-- The number of `<to>` recipient nodes inside `<participants>` wrappers of
a stanza content list. -/
def countSkdmRecipients (content : List BinaryNode) : Nat :=
  (content.map fun n =>
    if n.tag == "participants" then
      ((nodeChildren n.content).filter (fun c => c.tag == "to")).length
    else 0).sum

/-! ## Per-bucket job queue (`WASignalGroup/queue_job.js`) -/

/-- `_gcLimit` from `queue_job.js`. -/
def gcLimit : Nat := 10000

/-- `_asyncQueueExecutor(queue, cleanup)`: drain `queue[offt..limit)` with
`limit = min(queue.length, _gcLimit)`; when jobs remain, either splice the
first `limit` items off the head (when `limit ≥ _gcLimit`) or advance
`offt`; when none remain, call `cleanup`.  Returns the jobs executed in
order, the number of splices performed, and whether `cleanup` was reached;
`fuel` bounds the loop (the claims instantiate it large enough). -/
def asyncQueueExecutor {α : Type} : Nat → List α → Nat → List α × Nat × Bool
  | 0, _, _ => ([], 0, false)
  | fuel + 1, queue, offt =>
    let limit := min queue.length gcLimit
    let seg := (queue.drop offt).take (limit - offt)
    if limit < queue.length then
      if gcLimit ≤ limit then
        let r := asyncQueueExecutor fuel (queue.drop limit) 0
        (seg ++ r.1, r.2.1 + 1, r.2.2)
      else
        let r := asyncQueueExecutor fuel queue limit
        (seg ++ r.1, r.2.1, r.2.2)
    else (seg, 0, true)

/-- The synchronous part of `module.exports(bucket, awaitable)` for a fixed
bucket: create the queue and start an executor when the bucket is absent,
otherwise only append.  The state is the bucket's queue (`none` = no map
entry) paired with the number of executors started so far. -/
def queueJobEnqueue {α : Type} (st : Option (List α) × Nat) (job : α) :
    Option (List α) × Nat :=
  match st.1 with
  | none => (some [job], st.2 + 1)
  | some q => (some (q ++ [job]), st.2)

/-- Enqueue a batch of jobs (all arriving before the executor drains, as
when they "resolve in the same bucket"). -/
def queueJobEnqueueAll {α : Type} (jobs : List α) : Option (List α) × Nat :=
  jobs.foldl queueJobEnqueue (none, 0)

/-! ## Concrete instances used by counterexamples and witnesses -/

/-- Oracle environment for concrete relay scenarios: every pairwise
encryption yields a `msg` with ciphertext `[1]`, the group encryption
yields `[2]`, and USync resolves any audience to the single device
`5551` (no device suffix). -/
def cxRelayEnv : RelayEnv :=
  { encTypeOf := fun _ => "msg"
    encCipherOf := fun _ => [1]
    skmsgCipher := [2]
    groupParticipants := []
    usync := fun _ => [⟨"5551", JsNum.undef⟩]
    extraAttrs := [] }

/-- Oracle environment for the four-participant group scenario: USync
resolves the audience to the four distinct primary devices `1`–`4`. -/
def cxGroupEnv : RelayEnv :=
  { encTypeOf := fun _ => "msg"
    encCipherOf := fun _ => [1]
    skmsgCipher := [2]
    groupParticipants := ["1@s.whatsapp.net", "2@s.whatsapp.net",
      "3@s.whatsapp.net", "4@s.whatsapp.net"]
    usync := fun _ =>
      [⟨"1", JsNum.undef⟩, ⟨"2", JsNum.undef⟩, ⟨"3", JsNum.undef⟩, ⟨"4", JsNum.undef⟩]
    extraAttrs := [] }

/-- A device cache holding one entry: user `1` with its primary device. -/
def cxCache : List (String × List JidWithDevice) :=
  [("1", [⟨"1", JsNum.num 0⟩])]

/-- A concrete USync `iq` response: one result child whose `list` holds one
`user` item for `14155550001@s.whatsapp.net` carrying a single zero
device. -/
def cxUSyncResp : BinaryNode :=
  BinaryNode.mk "iq" []
    (.nodes [BinaryNode.mk "usync" []
      (.nodes [BinaryNode.mk "list" []
        (.nodes [BinaryNode.mk "user" [("jid", "14155550001@s.whatsapp.net")]
          (.nodes [BinaryNode.mk "devices" []
            (.nodes [BinaryNode.mk "device-list" []
              (.nodes [BinaryNode.mk "device" [("id", "0")] .nullc])])])])])])

/-- A concrete USync response for the `extractDeviceJids` witness: user `7`
with a zero device and a keyed device `1`. -/
def cxDeviceResp : BinaryNode :=
  BinaryNode.mk "iq" []
    (.nodes [BinaryNode.mk "usync" []
      (.nodes [BinaryNode.mk "list" []
        (.nodes [BinaryNode.mk "user" [("jid", "7@s.whatsapp.net")]
          (.nodes [BinaryNode.mk "devices" []
            (.nodes [BinaryNode.mk "device-list" []
              (.nodes [BinaryNode.mk "device" [("id", "0")] .nullc,
                BinaryNode.mk "device" [("id", "1"), ("key-index", "1")] .nullc])])])])])])

/-! ## Helper lemmas -/

theorem intRange_mem_lower {lo hi x : Int} (h : x ∈ intRange lo hi) : lo ≤ x := by
  unfold intRange at h
  rw [List.mem_map] at h
  obtain ⟨kk, hk, rfl⟩ := h
  exact le_add_of_nonneg_right (Int.natCast_nonneg kk)

theorem mergeDS_foldl_ne_nil (l : SignalDataSet) (b : SignalDataSet) (hb : b ≠ []) :
    l.foldl (fun acc kv => aset acc kv.1 (mergeTM ((alook acc kv.1).getD []) kv.2)) b ≠ [] := by
  induction l generalizing b with
  | nil => simpa using hb
  | cons x xs ih =>
    simp only [List.foldl_cons]
    exact ih _ (aset_ne_nil _ _ _)

theorem mergeDS_ne_nil {base payload : SignalDataSet} (h : payload ≠ []) :
    mergeDS base payload ≠ [] := by
  match payload, h with
  | (k, v) :: rest, _ =>
    unfold mergeDS
    simp only [List.foldl_cons]
    exact mergeDS_foldl_ne_nil rest _ (aset_ne_nil _ _ _)

theorem txGet_store_preserved (m : TxModule) (ty : String) (ids : List String) :
    (txGet m ty ids).2.store.setLog = m.store.setLog ∧
    (txGet m ty ids).2.store.data = m.store.data := by
  unfold txGet storeGet
  by_cases h :
      (ids.filter fun id => (alook ((alook m.transactionCache ty).getD []) id).isNone).isEmpty <;>
    simp [h]

theorem runOps_store_preserved (ops : List Op) (m : TxModule) :
    (runOps ops m).module.store.setLog = m.store.setLog ∧
    (runOps ops m).module.store.data = m.store.data := by
  induction ops generalizing m with
  | nil => exact ⟨rfl, rfl⟩
  | cons op rest ih =>
    cases op with
    | fail => exact ⟨rfl, rfl⟩
    | get ty ids =>
      have h1 := txGet_store_preserved m ty ids
      have h2 := ih (txGet m ty ids).2
      simp only [runOps]
      exact ⟨h2.1.trans h1.1, h2.2.trans h1.2⟩
    | set d =>
      simp only [runOps]
      exact ih _

theorem runOps_threw_of_fail (ops : List Op) (m : TxModule)
    (h : ops.any Op.isFail = true) : (runOps ops m).threw = true := by
  induction ops generalizing m with
  | nil => simp at h
  | cons op rest ih =>
    cases op with
    | fail => rfl
    | get ty ids =>
      simp only [List.any_cons, Op.isFail, Bool.false_or] at h
      simp only [runOps]
      exact ih _ h
    | set d =>
      simp only [List.any_cons, Op.isFail, Bool.false_or] at h
      simp only [runOps]
      exact ih _ h

theorem commitLoop_allFail (k : Nat) (muts : SignalDataSet) (s : Store)
    (h : s.setSchedule = List.replicate k false) :
    commitLoop k muts s =
      { data := s.data, setSchedule := [], getLog := s.getLog,
        setLog := s.setLog ++ List.replicate k muts } := by
  induction k generalizing s with
  | zero =>
    obtain ⟨d, sch, gl, sl⟩ := s
    simp only [List.replicate] at h
    subst h
    simp [commitLoop]
  | succ n ih =>
    obtain ⟨d, sch, gl, sl⟩ := s
    simp only [List.replicate_succ] at h
    subst h
    show commitLoop (n + 1) muts ⟨d, false :: List.replicate n false, gl, sl⟩ = _
    rw [commitLoop]
    simp only [storeSet, List.headD_cons, List.tail_cons, if_false, Bool.false_eq_true,
      if_neg (Bool.false_ne_true)]
    rw [ih ⟨d, List.replicate n false, gl, sl ++ [muts]⟩ rfl]
    simp [List.replicate_succ, List.append_assoc]

theorem commitLoop_emptySchedule (k : Nat) (hk : 0 < k) (muts : SignalDataSet) (s : Store)
    (h : s.setSchedule = []) :
    commitLoop k muts s =
      { data := mergeDS s.data muts, setSchedule := [], getLog := s.getLog,
        setLog := s.setLog ++ [muts] } := by
  obtain ⟨d, sch, gl, sl⟩ := s
  simp only at h
  subst h
  cases k with
  | zero => omega
  | succ n =>
    rw [commitLoop]
    simp [storeSet]

/-- A `TxModule` outside any transaction: clean caches over a store holding
`data0` with the given outcome schedule for `set` calls. -/
def cleanModule (data0 : SignalDataSet) (sched : List Bool) : TxModule :=
  { store := { data := data0, setSchedule := sched, getLog := [], setLog := [] }
    transactionCache := []
    mutations := []
    dbQueriesInTransaction := 0 }

/-! ## Claim theorems: transaction layer, pre-keys, job queue -/

/-- C1 (counterexample): the claim "a transaction whose commit fails on all
`maxCommitRetries` attempts of the underlying `set(mutations)` rejects with
a `CommitFailure`" is false on the code: with `maxCommitRetries = 2` and a
schedule making both `set` attempts throw, the transaction resolves
(`threw = false`), the backing data is unchanged, and exactly two `set`
attempts were made — the retry loop's `catch` swallows the final failure
and control falls through to a normal return. -/
theorem transaction_commitFailure_not_surfaced :
    (transaction (cleanModule [] [false, false])
        [Op.set [("pre-key", [("1", SVal.vobj 7)])]] 2).threw = false ∧
    (transaction (cleanModule [] [false, false])
        [Op.set [("pre-key", [("1", SVal.vobj 7)])]] 2).module.store.data = [] ∧
    (transaction (cleanModule [] [false, false])
        [Op.set [("pre-key", [("1", SVal.vobj 7)])]] 2).module.store.setLog.length = 2 := by
  decide

/-- C1 (amended): when every one of the `maxCommitRetries` commit attempts
fails, the error is swallowed, not surfaced: the transaction resolves
(`threw = false`) after exactly `maxCommitRetries` underlying `set`
attempts, the backing data is unchanged (the mutations are silently lost),
and a subsequent transaction on the same store still proceeds — it resolves
and commits with a single further `set` call. -/
theorem transaction_commitFailure_swallowed (k k2 : Nat) (data0 d1 d2 : SignalDataSet)
    (hd1 : d1 ≠ []) (hd2 : d2 ≠ []) (hk2 : 0 < k2) :
    (transaction (cleanModule data0 (List.replicate k false)) [Op.set d1] k).threw = false ∧
    (transaction (cleanModule data0 (List.replicate k false))
        [Op.set d1] k).module.store.data = data0 ∧
    (transaction (cleanModule data0 (List.replicate k false))
        [Op.set d1] k).module.store.setLog.length = k ∧
    (transaction (transaction (cleanModule data0 (List.replicate k false)) [Op.set d1] k).module
        [Op.set d2] k2).threw = false ∧
    (transaction (transaction (cleanModule data0 (List.replicate k false)) [Op.set d1] k).module
        [Op.set d2] k2).module.store.setLog.length = k + 1 := by
  have hm1 : mergeDS ([] : SignalDataSet) d1 ≠ [] := mergeDS_ne_nil hd1
  have hm2 : mergeDS ([] : SignalDataSet) d2 ≠ [] := mergeDS_ne_nil hd2
  have e1 : transaction (cleanModule data0 (List.replicate k false)) [Op.set d1] k =
      { module :=
          { store :=
              { data := data0, setSchedule := [], getLog := [],
                setLog := List.replicate k (mergeDS [] d1) }
            transactionCache := []
            mutations := []
            dbQueriesInTransaction := 0 }
        threw := false
        getResults := [] } := by
    unfold transaction
    simp only [runOps, cleanModule]
    rw [if_pos (show True ∧ mergeDS [] d1 ≠ [] from ⟨trivial, hm1⟩)]
    rw [commitLoop_allFail k _ _ rfl]
    simp
  have e2 : transaction (transaction (cleanModule data0 (List.replicate k false))
        [Op.set d1] k).module [Op.set d2] k2 =
      { module :=
          { store :=
              { data := mergeDS data0 (mergeDS [] d2), setSchedule := [], getLog := [],
                setLog := List.replicate k (mergeDS [] d1) ++ [mergeDS [] d2] }
            transactionCache := []
            mutations := []
            dbQueriesInTransaction := 0 }
        threw := false
        getResults := [] } := by
    rw [e1]
    unfold transaction
    simp only [runOps]
    rw [if_pos (show True ∧ mergeDS [] d2 ≠ [] from ⟨trivial, hm2⟩)]
    rw [commitLoop_emptySchedule k2 hk2 _ _ rfl]
  rw [e2, e1]
  simp

/-- C1 witness for the amended theorem, at `maxCommitRetries = 3` and a
second transaction allowed one try. -/
theorem transaction_commitFailure_swallowed_witness :
    ([("a", [("1", SVal.vobj 0)])] : SignalDataSet) ≠ [] ∧
    ([("b", [("2", SVal.vobj 0)])] : SignalDataSet) ≠ [] ∧
    0 < 1 ∧
    ((transaction (cleanModule [] (List.replicate 3 false))
        [Op.set [("a", [("1", SVal.vobj 0)])]] 3).threw = false ∧
      (transaction (cleanModule [] (List.replicate 3 false))
        [Op.set [("a", [("1", SVal.vobj 0)])]] 3).module.store.data = [] ∧
      (transaction (cleanModule [] (List.replicate 3 false))
        [Op.set [("a", [("1", SVal.vobj 0)])]] 3).module.store.setLog.length = 3 ∧
      (transaction (transaction (cleanModule [] (List.replicate 3 false))
          [Op.set [("a", [("1", SVal.vobj 0)])]] 3).module
        [Op.set [("b", [("2", SVal.vobj 0)])]] 1).threw = false ∧
      (transaction (transaction (cleanModule [] (List.replicate 3 false))
          [Op.set [("a", [("1", SVal.vobj 0)])]] 3).module
        [Op.set [("b", [("2", SVal.vobj 0)])]] 1).module.store.setLog.length = 3 + 1) :=
  ⟨by decide, by decide, by decide,
    transaction_commitFailure_swallowed 3 1 [] [("a", [("1", SVal.vobj 0)])]
      [("b", [("2", SVal.vobj 0)])] (by decide) (by decide) (by decide)⟩

/-- C3: a transaction whose workload throws never calls the underlying
`set` (the backing store's `set` log and data are untouched), clears the
in-memory `transactionCache` and `mutations` on exit, and re-raises the
failure to the caller. -/
theorem transaction_workThrow_noCommit (m : TxModule) (ops : List Op) (retries : Nat)
    (h : ops.any Op.isFail = true) :
    (transaction m ops retries).threw = true ∧
    (transaction m ops retries).module.store.setLog = m.store.setLog ∧
    (transaction m ops retries).module.store.data = m.store.data ∧
    (transaction m ops retries).module.transactionCache = [] ∧
    (transaction m ops retries).module.mutations = [] := by
  have ht := runOps_threw_of_fail ops m h
  have hs := runOps_store_preserved ops m
  unfold transaction
  simp only [ht]
  simp [hs.1, hs.2]

/-- C3 witness: a workload that stores a value and then throws, over a
store primed to accept writes. -/
theorem transaction_workThrow_noCommit_witness :
    ([Op.set [("session", [("s", SVal.vobj 3)])], Op.fail].any Op.isFail = true) ∧
    ((transaction (cleanModule [] []) [Op.set [("session", [("s", SVal.vobj 3)])], Op.fail] 3).threw = true ∧
      (transaction (cleanModule [] []) [Op.set [("session", [("s", SVal.vobj 3)])], Op.fail] 3).module.store.setLog = (cleanModule [] []).store.setLog ∧
      (transaction (cleanModule [] []) [Op.set [("session", [("s", SVal.vobj 3)])], Op.fail] 3).module.store.data = (cleanModule [] []).store.data ∧
      (transaction (cleanModule [] []) [Op.set [("session", [("s", SVal.vobj 3)])], Op.fail] 3).module.transactionCache = [] ∧
      (transaction (cleanModule [] []) [Op.set [("session", [("s", SVal.vobj 3)])], Op.fail] 3).module.mutations = []) :=
  ⟨by decide,
    transaction_workThrow_noCommit (cleanModule [] [])
      [Op.set [("session", [("s", SVal.vobj 3)])], Op.fail] 3 (by decide)⟩

/-- C10: inside a transaction, after `set` stores the falsy value `null`
under `(type, id)`, a subsequent `get` for that id returns a dictionary
omitting the id (`[]`) without consulting the underlying store (`getLog`
stays empty), yet the `null` value is still part of the single mutation
batch committed to the underlying `set` at outermost exit, and lands in the
backing data. -/
theorem transaction_falsy_value_semantics (ty id : String) (data0 : SignalDataSet)
    (retries : Nat) (hr : 0 < retries) :
    (transaction (cleanModule data0 []) [Op.set [(ty, [(id, SVal.vnull)])], Op.get ty [id]]
        retries).getResults = [[]] ∧
    (transaction (cleanModule data0 []) [Op.set [(ty, [(id, SVal.vnull)])], Op.get ty [id]]
        retries).module.store.getLog = [] ∧
    (transaction (cleanModule data0 []) [Op.set [(ty, [(id, SVal.vnull)])], Op.get ty [id]]
        retries).threw = false ∧
    (transaction (cleanModule data0 []) [Op.set [(ty, [(id, SVal.vnull)])], Op.get ty [id]]
        retries).module.store.setLog = [[(ty, [(id, SVal.vnull)])]] ∧
    (transaction (cleanModule data0 []) [Op.set [(ty, [(id, SVal.vnull)])], Op.get ty [id]]
        retries).module.store.data = mergeDS data0 [(ty, [(id, SVal.vnull)])] := by
  have e0 : runOps [Op.set [(ty, [(id, SVal.vnull)])], Op.get ty [id]] (cleanModule data0 []) =
      { module :=
          { store := { data := data0, setSchedule := [], getLog := [], setLog := [] }
            transactionCache := [(ty, [(id, SVal.vnull)])]
            mutations := [(ty, [(id, SVal.vnull)])]
            dbQueriesInTransaction := 0 }
        threw := false
        getResults := [[]] } := by
    simp [runOps, cleanModule, txGet, mergeDS, mergeTM, svTruthy]
  have hcl := commitLoop_emptySchedule retries hr [(ty, [(id, SVal.vnull)])]
      { data := data0, setSchedule := [], getLog := [], setLog := [] } rfl
  simp only [transaction]
  rw [e0]
  simp [hcl]

/-- C10 witness at `type = "session"`, `id = "k"`, one commit try. -/
theorem transaction_falsy_value_semantics_witness :
    0 < 1 ∧
    ((transaction (cleanModule [] []) [Op.set [("session", [("k", SVal.vnull)])], Op.get "session" ["k"]]
        1).getResults = [[]] ∧
      (transaction (cleanModule [] []) [Op.set [("session", [("k", SVal.vnull)])], Op.get "session" ["k"]]
        1).module.store.getLog = [] ∧
      (transaction (cleanModule [] []) [Op.set [("session", [("k", SVal.vnull)])], Op.get "session" ["k"]]
        1).threw = false ∧
      (transaction (cleanModule [] []) [Op.set [("session", [("k", SVal.vnull)])], Op.get "session" ["k"]]
        1).module.store.setLog = [[("session", [("k", SVal.vnull)])]] ∧
      (transaction (cleanModule [] []) [Op.set [("session", [("k", SVal.vnull)])], Op.get "session" ["k"]]
        1).module.store.data = mergeDS [] [("session", [("k", SVal.vnull)])]) :=
  ⟨by decide, transaction_falsy_value_semantics "session" "k" [] 1 (by decide)⟩

/-- C6: with `nextPreKeyId = 10` and `firstUnuploadedPreKeyId = 10`,
`getNextPreKeys(state, 5)` generates new pre-keys with exactly the ids
10–14, returns the update `nextPreKeyId = 15`,
`firstUnuploadedPreKeyId = 15`, and performs exactly one `pre-key` write
batch (containing exactly those ids). -/
theorem getNextPreKeys_exhaustion_scenario :
    (generateOrGetPreKeys 10 10 5).newPreKeyIds = [10, 11, 12, 13, 14] ∧
    getNextPreKeys 10 10 5 =
      { updNextPreKeyId := 15
        updFirstUnuploadedPreKeyId := 15
        preKeyWriteBatches := [[10, 11, 12, 13, 14]]
        preKeyReadIds := [10, 11, 12, 13, 14] } := by
  decide

/-- C7: whenever `firstUnuploadedPreKeyId ≤ nextPreKeyId`, the update
computed by `getNextPreKeys` preserves that invariant, never decreases
either counter, and every id freshly generated by `generateOrGetPreKeys`
is at least `nextPreKeyId` (no id `≤ nextPreKeyId - 1` is re-issued). -/
theorem preKey_counters_monotone (next first count : Int) (h : first ≤ next) :
    (getNextPreKeys next first count).updFirstUnuploadedPreKeyId ≤
        (getNextPreKeys next first count).updNextPreKeyId ∧
    next ≤ (getNextPreKeys next first count).updNextPreKeyId ∧
    first ≤ (getNextPreKeys next first count).updFirstUnuploadedPreKeyId ∧
    ∀ id ∈ (generateOrGetPreKeys next first count).newPreKeyIds, next ≤ id := by
  refine ⟨?_, ?_, ?_, ?_⟩
  · simp only [getNextPreKeys, generateOrGetPreKeys]
    omega
  · simp only [getNextPreKeys, generateOrGetPreKeys]
    omega
  · simp only [getNextPreKeys, generateOrGetPreKeys]
    omega
  · intro id hid
    simp only [generateOrGetPreKeys] at hid
    by_cases hrem : count - (next - first) > 0
    · rw [if_pos hrem] at hid
      exact intRange_mem_lower hid
    · rw [if_neg hrem] at hid
      simp at hid

/-- C7 witness at `(next, first, count) = (10, 10, 5)`. -/
theorem preKey_counters_monotone_witness :
    ((10 : Int) ≤ 10) ∧
    ((getNextPreKeys 10 10 5).updFirstUnuploadedPreKeyId ≤
        (getNextPreKeys 10 10 5).updNextPreKeyId ∧
      (10 : Int) ≤ (getNextPreKeys 10 10 5).updNextPreKeyId ∧
      (10 : Int) ≤ (getNextPreKeys 10 10 5).updFirstUnuploadedPreKeyId ∧
      ∀ id ∈ (generateOrGetPreKeys 10 10 5).newPreKeyIds, (10 : Int) ≤ id) :=
  ⟨by decide, preKey_counters_monotone 10 10 5 (by decide)⟩

theorem asyncQueueExecutor_small {α : Type} (q : List α) (h : q.length ≤ gcLimit) :
    asyncQueueExecutor 1 q 0 = (q, 0, true) := by
  have hmin : min q.length gcLimit = q.length := Nat.min_eq_left h
  rw [show (1 : Nat) = 0 + 1 from rfl, asyncQueueExecutor]
  simp [hmin]

theorem queueJobEnqueue_go {α : Type} (rest : List α) (q0 : List α) (c : Nat) :
    rest.foldl queueJobEnqueue (some q0, c) = (some (q0 ++ rest), c) := by
  induction rest generalizing q0 with
  | nil => simp
  | cons x xs ih =>
    simp only [List.foldl_cons, queueJobEnqueue]
    rw [ih]
    simp

theorem queueJobEnqueueAll_single_executor {α : Type} (j : α) (js : List α) :
    queueJobEnqueueAll (j :: js) = (some (j :: js), 1) := by
  simp only [queueJobEnqueueAll, List.foldl_cons, queueJobEnqueue]
  rw [queueJobEnqueue_go]
  simp

/-- C9: when more than `_gcLimit = 10000` (and at most `2·_gcLimit`) jobs
are enqueued into one bucket, a single executor is started (`1` in the
enqueue state), it runs every job exactly once in arrival order (the
executed list equals the queue), performs exactly one head-splice of the
first 10000 drained items, continues with the remainder in the same run,
and reaches `cleanup` — which removes the bucket entry — when the queue
empties. -/
theorem jobQueue_gcSplice_scenario (q : List Nat) (h1 : gcLimit < q.length)
    (h2 : q.length ≤ 2 * gcLimit) :
    queueJobEnqueueAll q = (some q, 1) ∧
    asyncQueueExecutor 2 q 0 = (q, 1, true) := by
  have hmin : min q.length gcLimit = gcLimit := Nat.min_eq_right h1.le
  have hdrop : (q.drop gcLimit).length ≤ gcLimit := by
    simp only [List.length_drop]
    omega
  have hrec := asyncQueueExecutor_small (q.drop gcLimit) hdrop
  constructor
  · cases q with
    | nil => simp [gcLimit] at h1
    | cons j js => exact queueJobEnqueueAll_single_executor j js
  · rw [show (2 : Nat) = 1 + 1 from rfl, asyncQueueExecutor]
    simp only [hmin]
    rw [if_pos h1, if_pos (le_refl gcLimit)]
    rw [hrec]
    simp

/-- C9 witness at exactly 10001 jobs. -/
theorem jobQueue_gcSplice_scenario_witness :
    gcLimit < (List.range 10001).length ∧
    (List.range 10001).length ≤ 2 * gcLimit ∧
    (queueJobEnqueueAll (List.range 10001) = (some (List.range 10001), 1) ∧
      asyncQueueExecutor 2 (List.range 10001) 0 = (List.range 10001, 1, true)) := by
  have h1 : gcLimit < (List.range 10001).length := by
    simp only [List.length_range, gcLimit]
    omega
  have h2 : (List.range 10001).length ≤ 2 * gcLimit := by
    simp only [List.length_range, gcLimit]
    omega
  exact ⟨h1, h2, jobQueue_gcSplice_scenario (List.range 10001) h1 h2⟩

/-! ## Claim theorems: relay engine -/

theorem senderKeyFold_fresh (devServer : String) (ds : List JidWithDevice)
    (sk : List String) (m : SenderKeyMap)
    (hnm : ∀ d ∈ ds, alook m (jidEncode d.user devServer d.device) ≠ some true)
    (hnd : (ds.map (fun d => jidEncode d.user devServer d.device)).Nodup) :
    ds.foldl (senderKeyStep devServer false) (sk, m) =
      (sk ++ ds.map (fun d => jidEncode d.user devServer d.device),
        markAll m (ds.map (fun d => jidEncode d.user devServer d.device))) := by
  induction ds generalizing sk m with
  | nil => simp [markAll]
  | cons d rest ih =>
    have hstep : senderKeyStep devServer false (sk, m) d =
        (sk ++ [jidEncode d.user devServer d.device],
          aset m (jidEncode d.user devServer d.device) true) := by
      unfold senderKeyStep
      rw [if_pos (Or.inl (hnm d (List.mem_cons_self _ _)))]
    have hnm' : ∀ d' ∈ rest,
        alook (aset m (jidEncode d.user devServer d.device) true)
          (jidEncode d'.user devServer d'.device) ≠ some true := by
      intro d' hd'
      have hne : jidEncode d.user devServer d.device ≠
          jidEncode d'.user devServer d'.device := by
        intro heq
        have hmem : jidEncode d'.user devServer d'.device ∈
            rest.map (fun d => jidEncode d.user devServer d.device) :=
          List.mem_map_of_mem (fun d => jidEncode d.user devServer d.device) hd'
        rw [← heq] at hmem
        exact (List.nodup_cons.1 hnd).1 hmem
      rw [alook_aset_ne _ _ _ _ hne]
      exact hnm d' (List.mem_cons_of_mem _ hd')
    simp only [List.foldl_cons, List.map_cons]
    rw [hstep, ih _ _ hnm' (List.nodup_cons.1 hnd).2]
    simp [markAll, List.append_assoc]

/-- C2 (counterexample): the claim "for a relayMessage to status@broadcast
no sender-key-memory entry is written" is false on the code: relaying to
`status@broadcast` with `statusJidList = ["5551@s.whatsapp.net"]` over an
empty `sender-key-memory` store ends with
`keys.set({'sender-key-memory': {'status@broadcast': …}})` having written an
entry marking the recipient `true` (line 500 runs unconditionally in the
group/status branch). -/
theorem relayMessage_status_writes_senderKeyMemory :
    (relayMessageGroupStatus cxRelayEnv statusJid none ["5551@s.whatsapp.net"] []).map
        GroupRelayRun.senderKeyMemory =
      some [("status@broadcast", [("5551@s.whatsapp.net", true)])] ∧
    (relayMessageGroupStatus cxRelayEnv statusJid none ["5551@s.whatsapp.net"] []).map
        GroupRelayRun.senderKeyMemory ≠ some [] := by
  constructor
  · rfl
  · intro h
    rw [show (relayMessageGroupStatus cxRelayEnv statusJid none ["5551@s.whatsapp.net"] []).map
        GroupRelayRun.senderKeyMemory =
      some [("status@broadcast", [("5551@s.whatsapp.net", true)])] from rfl] at h
    simp at h

theorem countEncSkmsg_skmsg_wrapper (bs : List Nat) (pn : List BinaryNode) :
    countEncSkmsg
      ([BinaryNode.mk "enc" [("v", "2"), ("type", "skmsg")] (.bytes bs)] ++
        (if pn.isEmpty then []
          else [BinaryNode.mk "participants" [] (.nodes pn)])) = 1 := by
  by_cases h : pn.isEmpty <;>
    simp [h, countEncSkmsg, List.filter, BinaryNode.tag, BinaryNode.attrs, alook]

/-- C2 (amended): for a status relay (no `participant`), the stored
`sender-key-memory` is not *read* — the map starts empty, so every device of
the `statusJidList` audience is selected for the SKDM fan-out — and the
`skmsg` payload is built exactly as in the group case; but the branch still
*writes* a `sender-key-memory` entry for `status@broadcast` marking that
whole audience `true`. -/
theorem relayMessage_status_effects (env : RelayEnv) (statusJidList : List String)
    (store : SenderKeyMemoryStore)
    (hnd : ((env.usync statusJidList).map encDev).Nodup) :
    ∃ r, relayMessageGroupStatus env statusJid none statusJidList store = some r ∧
      r.readSenderKeyMemory = false ∧
      r.senderKeyJids = (env.usync statusJidList).map encDev ∧
      countEncSkmsg r.content = 1 ∧
      r.senderKeyMemory =
        aset store statusJid (markAll [] ((env.usync statusJidList).map encDev)) := by
  have hdec : jidDecode statusJid = some ⟨"status", .undef, "broadcast"⟩ := rfl
  have hnd' : ((env.usync statusJidList).map
      (fun d => jidEncode d.user "s.whatsapp.net" d.device)).Nodup := hnd
  have hfold := senderKeyFold_fresh "s.whatsapp.net" (env.usync statusJidList) [] []
    (by intro d hd; simp) hnd'
  unfold relayMessageGroupStatus
  rw [hdec]
  simp only [Option.isNone_none, Option.isSome_none, beq_self_eq_true, Bool.not_true,
    Bool.and_false, Bool.false_and, Bool.true_and, List.nil_append, List.append_nil,
    ite_true, ite_false, if_true, if_false, Bool.false_eq_true, Bool.true_eq_false,
    show (("broadcast" == "lid") : Bool) = false from rfl]
  rw [hfold]
  refine ⟨_, rfl, rfl, rfl, ?_, rfl⟩
  exact countEncSkmsg_skmsg_wrapper _ _

/-- C2 witness for the amended theorem: a single status recipient over an
empty store. -/
theorem relayMessage_status_effects_witness :
    ((cxRelayEnv.usync ["5551@s.whatsapp.net"]).map encDev).Nodup ∧
    (∃ r, relayMessageGroupStatus cxRelayEnv statusJid none ["5551@s.whatsapp.net"] [] =
        some r ∧
      r.readSenderKeyMemory = false ∧
      r.senderKeyJids = (cxRelayEnv.usync ["5551@s.whatsapp.net"]).map encDev ∧
      countEncSkmsg r.content = 1 ∧
      r.senderKeyMemory =
        aset [] statusJid
          (markAll [] ((cxRelayEnv.usync ["5551@s.whatsapp.net"]).map encDev))) :=
  ⟨by decide, relayMessage_status_effects cxRelayEnv ["5551@s.whatsapp.net"] [] (by decide)⟩

theorem senderKeyStep_skip (devServer : String) (acc : List String × SenderKeyMap)
    (d : JidWithDevice)
    (h : alook acc.2 (jidEncode d.user devServer d.device) = some true) :
    senderKeyStep devServer false acc d = acc := by
  unfold senderKeyStep
  rw [if_neg]
  rintro (hc | hc)
  · exact hc h
  · cases hc

theorem senderKeyStep_add (devServer : String) (acc : List String × SenderKeyMap)
    (d : JidWithDevice)
    (h : alook acc.2 (jidEncode d.user devServer d.device) ≠ some true) :
    senderKeyStep devServer false acc d =
      (acc.1 ++ [jidEncode d.user devServer d.device],
        aset acc.2 (jidEncode d.user devServer d.device) true) := by
  unfold senderKeyStep
  rw [if_pos (Or.inl h)]

theorem countSkdmRecipients_skmsg_wrapper (bs : List Nat) (env : RelayEnv)
    (j3 j4 : String) :
    countSkdmRecipients
      ([BinaryNode.mk "enc" [("v", "2"), ("type", "skmsg")] (.bytes bs)] ++
        (if ((createParticipantNodes env [j3, j4]).1).isEmpty then []
          else [BinaryNode.mk "participants" []
            (.nodes (createParticipantNodes env [j3, j4]).1)])) = 2 := by
  simp [createParticipantNodes, countSkdmRecipients, nodeChildren, BinaryNode.tag,
    BinaryNode.content, List.filter]

/-- C4: relaying to a group of four participant devices whose
`sender-key-memory` row marks exactly the first two `true` (no
`participant` option): the selection keeps exactly the two unmarked
devices, the stanza content carries exactly one top-level
`<enc type="skmsg">` child and exactly two `<to>` recipient nodes (each
holding the pairwise-encrypted senderKeyDistributionMessage), and
afterwards all four devices are marked `true` in the written
`sender-key-memory` row. -/
theorem relayMessage_group_halfKnown (env : RelayEnv) (d1 d2 d3 d4 : JidWithDevice)
    (husync : env.usync env.groupParticipants = [d1, d2, d3, d4])
    (h12 : encDev d1 ≠ encDev d2) (h13 : encDev d1 ≠ encDev d3)
    (h14 : encDev d1 ≠ encDev d4) (h23 : encDev d2 ≠ encDev d3)
    (h24 : encDev d2 ≠ encDev d4) (h34 : encDev d3 ≠ encDev d4) :
    ∃ r, relayMessageGroupStatus env "x@g.us" none []
        [("x@g.us", [(encDev d1, true), (encDev d2, true)])] = some r ∧
      r.senderKeyJids = [encDev d3, encDev d4] ∧
      countEncSkmsg r.content = 1 ∧
      countSkdmRecipients r.content = 2 ∧
      alook ((alook r.senderKeyMemory "x@g.us").getD []) (encDev d1) = some true ∧
      alook ((alook r.senderKeyMemory "x@g.us").getD []) (encDev d2) = some true ∧
      alook ((alook r.senderKeyMemory "x@g.us").getD []) (encDev d3) = some true ∧
      alook ((alook r.senderKeyMemory "x@g.us").getD []) (encDev d4) = some true := by
  have hdec : jidDecode "x@g.us" = some ⟨"x", .undef, "g.us"⟩ := rfl
  simp only [encDev] at h12 h13 h14 h23 h24 h34 ⊢
  have e1 : alook [(jidEncode d1.user "s.whatsapp.net" d1.device, true),
      (jidEncode d2.user "s.whatsapp.net" d2.device, true)]
      (jidEncode d1.user "s.whatsapp.net" d1.device) = some true := by
    simp
  have e2 : alook [(jidEncode d1.user "s.whatsapp.net" d1.device, true),
      (jidEncode d2.user "s.whatsapp.net" d2.device, true)]
      (jidEncode d2.user "s.whatsapp.net" d2.device) = some true := by
    simp [h12]
  have e3 : alook [(jidEncode d1.user "s.whatsapp.net" d1.device, true),
      (jidEncode d2.user "s.whatsapp.net" d2.device, true)]
      (jidEncode d3.user "s.whatsapp.net" d3.device) ≠ some true := by
    simp [h13, h23]
  have e4 : alook (aset [(jidEncode d1.user "s.whatsapp.net" d1.device, true),
      (jidEncode d2.user "s.whatsapp.net" d2.device, true)]
      (jidEncode d3.user "s.whatsapp.net" d3.device) true)
      (jidEncode d4.user "s.whatsapp.net" d4.device) ≠ some true := by
    rw [alook_aset_ne _ _ _ _ h34]
    simp [h14, h24]
  unfold relayMessageGroupStatus
  rw [hdec]
  simp only [Option.isNone_none, Option.isSome_none, beq_self_eq_true, Bool.not_true,
    Bool.not_false, Bool.and_false, Bool.false_and, Bool.true_and, Bool.and_true,
    Bool.and_self, List.nil_append, List.append_nil, ite_true, ite_false, if_true,
    if_false, Bool.false_eq_true, Bool.true_eq_false, eq_self_iff_true,
    show (("x@g.us" == statusJid) : Bool) = false from rfl,
    show (("g.us" == "lid") : Bool) = false from rfl]
  rw [husync]
  rw [List.foldl_cons, senderKeyStep_skip _ _ _ e1]
  rw [List.foldl_cons, senderKeyStep_skip _ _ _ e2]
  rw [List.foldl_cons, senderKeyStep_add _ _ _ e3]
  rw [List.foldl_cons, senderKeyStep_add _ _ _ e4]
  rw [List.foldl_nil]
  simp only [List.nil_append, List.singleton_append, ne_eq, List.cons_ne_nil,
    not_false_eq_true, ite_true]
  refine ⟨_, rfl, rfl, countEncSkmsg_skmsg_wrapper _ _,
    countSkdmRecipients_skmsg_wrapper _ _ _ _, ?_, ?_, ?_, ?_⟩
  · simp only [alook_aset_self, Option.getD_some]
    rw [alook_aset_ne _ _ _ _ (Ne.symm h14), alook_aset_ne _ _ _ _ (Ne.symm h13)]
    simp
  · simp only [alook_aset_self, Option.getD_some]
    rw [alook_aset_ne _ _ _ _ (Ne.symm h24), alook_aset_ne _ _ _ _ (Ne.symm h23)]
    simp [h12]
  · simp only [alook_aset_self, Option.getD_some]
    rw [alook_aset_ne _ _ _ _ (Ne.symm h34)]
    exact alook_aset_self _ _ _
  · simp only [alook_aset_self, Option.getD_some]

/-- C4 witness: four concrete distinct primary devices, the first two
already marked. -/
theorem relayMessage_group_halfKnown_witness :
    cxGroupEnv.usync cxGroupEnv.groupParticipants =
      [⟨"1", JsNum.undef⟩, ⟨"2", JsNum.undef⟩, ⟨"3", JsNum.undef⟩,
        (⟨"4", JsNum.undef⟩ : JidWithDevice)] ∧
    encDev (⟨"1", JsNum.undef⟩ : JidWithDevice) ≠ encDev ⟨"2", JsNum.undef⟩ ∧
    (∃ r, relayMessageGroupStatus cxGroupEnv "x@g.us" none []
        [("x@g.us", [(encDev ⟨"1", JsNum.undef⟩, true), (encDev ⟨"2", JsNum.undef⟩, true)])] =
          some r ∧
      r.senderKeyJids = [encDev ⟨"3", JsNum.undef⟩, encDev ⟨"4", JsNum.undef⟩] ∧
      countEncSkmsg r.content = 1 ∧
      countSkdmRecipients r.content = 2 ∧
      alook ((alook r.senderKeyMemory "x@g.us").getD []) (encDev ⟨"1", JsNum.undef⟩) = some true ∧
      alook ((alook r.senderKeyMemory "x@g.us").getD []) (encDev ⟨"2", JsNum.undef⟩) = some true ∧
      alook ((alook r.senderKeyMemory "x@g.us").getD []) (encDev ⟨"3", JsNum.undef⟩) = some true ∧
      alook ((alook r.senderKeyMemory "x@g.us").getD []) (encDev ⟨"4", JsNum.undef⟩) = some true) :=
  ⟨rfl, by decide,
    relayMessage_group_halfKnown cxGroupEnv ⟨"1", JsNum.undef⟩ ⟨"2", JsNum.undef⟩
      ⟨"3", JsNum.undef⟩ ⟨"4", JsNum.undef⟩ rfl (by decide) (by decide) (by decide)
      (by decide) (by decide) (by decide)⟩

/-! ## Claim theorems: `getUSyncDevices` -/

theorem uSyncFold_spec (cache : List (String × List JidWithDevice)) (l : List String)
    (rs : List JidWithDevice) (us : List String) :
    l.foldl (uSyncStep true cache) (rs, us) =
      (rs ++ (l.filterMap (cacheServed cache)).flatten,
        us ++ (l.filter (fun j => (cacheServed cache j).isNone)).map jidNormalizedUser) := by
  induction l generalizing rs us with
  | nil => simp
  | cons j rest ih =>
    cases hc : cacheServed cache j with
    | some ds =>
      simp only [List.foldl_cons, uSyncStep, hc, ite_true, if_true]
      rw [ih]
      simp [List.filterMap_cons_some hc, List.filter_cons, hc, List.append_assoc]
    | none =>
      simp only [List.foldl_cons, uSyncStep, hc]
      rw [ih]
      simp [List.filterMap_cons_none hc, List.filter_cons, hc, List.append_assoc]

/-- C5 (counterexample): the claim "getUSyncDevices uniqueifies the input by
bare user" is false on the code: with the cache holding user `1` and the
input `["1@s.whatsapp.net", "1:1@s.whatsapp.net"]` (the same bare user in
two JID forms), `useCache = true` serves the cached device list twice — the
dedup is `new Set(jids)` over exact strings, not bare users. -/
theorem getUSyncDevices_not_dedup_by_user :
    (getUSyncDevices ["1@s.whatsapp.net", "1:1@s.whatsapp.net"] true false cxCache
        (BinaryNode.mk "iq" [] .nullc) "9@s.whatsapp.net").map USyncRun.deviceResults =
      some [⟨"1", JsNum.num 0⟩, ⟨"1", JsNum.num 0⟩] := by
  decide

/-- C5 (amended): `getUSyncDevices(jids, true, iz)` uniqueifies the input by
exact JID string (not bare user); each deduplicated JID whose decoded user
is in the cache is served from the cache, the others contribute their
normalized JID to the (at most one) usync query, issued exactly when that
list is non-empty; the result is the concatenation of the cached lists with
the extracted query results. -/
theorem getUSyncDevices_cache_split (jids : List String) (iz : Bool)
    (cache : List (String × List JidWithDevice)) (resp : BinaryNode) (meId : String)
    (ext : List JidWithDevice)
    (hext : extractDeviceJids resp meId iz = some ext) :
    (getUSyncDevices jids true iz cache resp meId).map USyncRun.queriedJids =
      some (((dedupFirst jids).filter
        (fun j => (cacheServed cache j).isNone)).map jidNormalizedUser) ∧
    (getUSyncDevices jids true iz cache resp meId).map USyncRun.queryIssued =
      some (!((dedupFirst jids).filter (fun j => (cacheServed cache j).isNone)).isEmpty) ∧
    (getUSyncDevices jids true iz cache resp meId).map USyncRun.deviceResults =
      some (((dedupFirst jids).filterMap (cacheServed cache)).flatten ++
        (if ((dedupFirst jids).filter (fun j => (cacheServed cache j).isNone)).isEmpty
          then [] else ext)) := by
  by_cases hemp : (dedupFirst jids).filter (fun j => (cacheServed cache j).isNone) = [] <;>
    refine ⟨?_, ?_, ?_⟩ <;>
  · simp only [getUSyncDevices]
    rw [uSyncFold_spec]
    simp [hemp, hext, List.isEmpty_iff, List.map_eq_nil_iff]

/-- C5 witness: the spec's USync round-trip scenario — user `14155550000`
cached, user `14155550001` fetched through the single query (the third
conjunct checks the concrete query audience). -/
theorem getUSyncDevices_cache_split_witness :
    extractDeviceJids cxUSyncResp "9@s.whatsapp.net" false =
      some [⟨"14155550001", JsNum.num 0⟩] ∧
    ((getUSyncDevices ["14155550000@s.whatsapp.net", "14155550001@s.whatsapp.net"] true false
        [("14155550000", [⟨"14155550000", JsNum.num 0⟩])] cxUSyncResp
        "9@s.whatsapp.net").map USyncRun.queriedJids =
      some (((dedupFirst ["14155550000@s.whatsapp.net", "14155550001@s.whatsapp.net"]).filter
        (fun j => (cacheServed [("14155550000", [⟨"14155550000", JsNum.num 0⟩])] j).isNone)).map
        jidNormalizedUser) ∧
    (getUSyncDevices ["14155550000@s.whatsapp.net", "14155550001@s.whatsapp.net"] true false
        [("14155550000", [⟨"14155550000", JsNum.num 0⟩])] cxUSyncResp
        "9@s.whatsapp.net").map USyncRun.queryIssued =
      some (!((dedupFirst ["14155550000@s.whatsapp.net", "14155550001@s.whatsapp.net"]).filter
        (fun j => (cacheServed [("14155550000", [⟨"14155550000", JsNum.num 0⟩])] j).isNone)).isEmpty) ∧
    (getUSyncDevices ["14155550000@s.whatsapp.net", "14155550001@s.whatsapp.net"] true false
        [("14155550000", [⟨"14155550000", JsNum.num 0⟩])] cxUSyncResp
        "9@s.whatsapp.net").map USyncRun.deviceResults =
      some (((dedupFirst ["14155550000@s.whatsapp.net", "14155550001@s.whatsapp.net"]).filterMap
          (cacheServed [("14155550000", [⟨"14155550000", JsNum.num 0⟩])])).flatten ++
        (if ((dedupFirst ["14155550000@s.whatsapp.net", "14155550001@s.whatsapp.net"]).filter
            (fun j => (cacheServed [("14155550000", [⟨"14155550000", JsNum.num 0⟩])] j).isNone)).isEmpty
          then [] else [⟨"14155550001", JsNum.num 0⟩]))) ∧
    (getUSyncDevices ["14155550000@s.whatsapp.net", "14155550001@s.whatsapp.net"] true false
        [("14155550000", [⟨"14155550000", JsNum.num 0⟩])] cxUSyncResp
        "9@s.whatsapp.net").map USyncRun.queriedJids =
      some ["14155550001@s.whatsapp.net"] :=
  ⟨by decide,
    getUSyncDevices_cache_split
      ["14155550000@s.whatsapp.net", "14155550001@s.whatsapp.net"] false
      [("14155550000", [⟨"14155550000", JsNum.num 0⟩])] cxUSyncResp "9@s.whatsapp.net"
      [⟨"14155550001", JsNum.num 0⟩] (by decide),
    by decide⟩

/-! ## Claim theorems: `extractDeviceJids` -/

theorem processDevice_mem (tag : String) (attrs : List (String × String))
    (user myUser : String) (myDevice : JsNum) (ez : Bool) (acc : List JidWithDevice)
    (p : JidWithDevice) (h : p ∈ processDevice tag attrs user myUser myDevice ez acc) :
    p ∈ acc ∨ (p = ⟨user, jsPlus (alook attrs "id")⟩ ∧
      deviceKeepCond tag attrs user myUser myDevice ez) := by
  unfold processDevice at h
  by_cases hc : deviceKeepCond tag attrs user myUser myDevice ez
  · rw [if_pos hc] at h
    rcases List.mem_append.1 h with h | h
    · exact Or.inl h
    · exact Or.inr ⟨List.mem_singleton.1 h, hc⟩
  · rw [if_neg hc] at h
    exact Or.inl h

theorem foldDevices_mem (ds : List BinaryNode) (user myUser : String) (myDevice : JsNum)
    (ez : Bool) (acc : List JidWithDevice) (p : JidWithDevice)
    (h : p ∈ ds.foldl
      (fun a c => processDevice c.tag c.attrs user myUser myDevice ez a) acc) :
    p ∈ acc ∨ ∃ c ∈ ds, p = ⟨user, jsPlus (alook c.attrs "id")⟩ ∧
      deviceKeepCond c.tag c.attrs user myUser myDevice ez := by
  induction ds generalizing acc with
  | nil => exact Or.inl h
  | cons c rest ih =>
    simp only [List.foldl_cons] at h
    rcases ih _ h with h' | ⟨c', hc', hp⟩
    · rcases processDevice_mem _ _ _ _ _ _ _ _ h' with h'' | hp
      · exact Or.inl h''
      · exact Or.inr ⟨c, List.mem_cons_self _ _, hp⟩
    · exact Or.inr ⟨c', List.mem_cons_of_mem _ hc', hp⟩

theorem processItem_mem (item : BinaryNode) (myUser : String) (myDevice : JsNum)
    (ez : Bool) (acc out : List JidWithDevice) (p : JidWithDevice)
    (hrun : processItem item myUser myDevice ez acc = some out) (hp : p ∈ out) :
    p ∈ acc ∨ ∃ parts, jidDecode ((alook item.attrs "jid").getD "") = some parts ∧
      ∃ c ∈ deviceListOf item, p = ⟨parts.user, jsPlus (alook c.attrs "id")⟩ ∧
        deviceKeepCond c.tag c.attrs parts.user myUser myDevice ez := by
  unfold processItem at hrun
  cases hdec : jidDecode ((alook item.attrs "jid").getD "") with
  | none =>
    rw [hdec] at hrun
    cases hrun
  | some parts =>
    rw [hdec] at hrun
    have hout := Option.some.inj hrun
    subst hout
    rcases foldDevices_mem _ _ _ _ _ _ _ hp with h | h
    · exact Or.inl h
    · exact Or.inr ⟨parts, rfl, h⟩

theorem foldItems_mem (items : List BinaryNode) (myUser : String) (myDevice : JsNum)
    (ez : Bool) (acc out : List JidWithDevice) (p : JidWithDevice)
    (hrun : items.foldlM
      (fun a item => processItem item myUser myDevice ez a) acc = some out)
    (hp : p ∈ out) :
    p ∈ acc ∨ ∃ item ∈ items, ∃ parts,
      jidDecode ((alook item.attrs "jid").getD "") = some parts ∧
      ∃ c ∈ deviceListOf item, p = ⟨parts.user, jsPlus (alook c.attrs "id")⟩ ∧
        deviceKeepCond c.tag c.attrs parts.user myUser myDevice ez := by
  induction items generalizing acc with
  | nil =>
    simp only [List.foldlM_nil, Option.pure_def] at hrun
    have hout := Option.some.inj hrun
    subst hout
    exact Or.inl hp
  | cons item rest ih =>
    simp only [List.foldlM_cons] at hrun
    cases hmid : processItem item myUser myDevice ez acc with
    | none =>
      rw [hmid] at hrun
      cases hrun
    | some mid =>
      rw [hmid] at hrun
      simp only [Option.bind_eq_bind, Option.some_bind] at hrun
      rcases ih _ hrun with h | ⟨item', hmem, hrest⟩
      · rcases processItem_mem _ _ _ _ _ _ _ hmid h with h' | h'
        · exact Or.inl h'
        · exact Or.inr ⟨item, List.mem_cons_self _ _, h'⟩
      · exact Or.inr ⟨item', List.mem_cons_of_mem _ hmem, hrest⟩

theorem foldNodes_mem (ns : List BinaryNode) (myUser : String) (myDevice : JsNum)
    (ez : Bool) (acc out : List JidWithDevice) (p : JidWithDevice)
    (hrun : ns.foldlM
      (fun a node => (listItemsOf node).foldlM
        (fun a2 item => processItem item myUser myDevice ez a2) a) acc = some out)
    (hp : p ∈ out) :
    p ∈ acc ∨ ∃ node ∈ ns, ∃ item ∈ listItemsOf node, ∃ parts,
      jidDecode ((alook item.attrs "jid").getD "") = some parts ∧
      ∃ c ∈ deviceListOf item, p = ⟨parts.user, jsPlus (alook c.attrs "id")⟩ ∧
        deviceKeepCond c.tag c.attrs parts.user myUser myDevice ez := by
  induction ns generalizing acc with
  | nil =>
    simp only [List.foldlM_nil, Option.pure_def] at hrun
    have hout := Option.some.inj hrun
    subst hout
    exact Or.inl hp
  | cons node rest ih =>
    simp only [List.foldlM_cons] at hrun
    cases hmid : (listItemsOf node).foldlM
        (fun a2 item => processItem item myUser myDevice ez a2) acc with
    | none =>
      rw [hmid] at hrun
      cases hrun
    | some mid =>
      rw [hmid] at hrun
      simp only [Option.bind_eq_bind, Option.some_bind] at hrun
      rcases ih _ hrun with h | ⟨node', hmem, hrest⟩
      · rcases foldItems_mem _ _ _ _ _ _ _ hmid h with h' | ⟨item, hitem, h'⟩
        · exact Or.inl h'
        · exact Or.inr ⟨node, List.mem_cons_self _ _, item, hitem, h'⟩
      · exact Or.inr ⟨node', List.mem_cons_of_mem _ hmem, hrest⟩

theorem extractDeviceJids_mem (resp : BinaryNode) (myJid : String) (ez : Bool)
    (me : JidParts) (out : List JidWithDevice) (p : JidWithDevice)
    (hme : jidDecode myJid = some me)
    (hrun : extractDeviceJids resp myJid ez = some out) (hp : p ∈ out) :
    ∃ e ∈ deviceDescriptors resp, ∃ parts, jidDecode e.1 = some parts ∧
      p = ⟨parts.user, jsPlus (alook e.2.2 "id")⟩ ∧
      deviceKeepCond e.2.1 e.2.2 parts.user me.user me.device ez := by
  unfold extractDeviceJids at hrun
  rw [hme] at hrun
  cases hcont : resp.content with
  | nullc =>
    rw [hcont] at hrun
    cases hrun
  | bytes bs =>
    rw [hcont] at hrun
    cases hrun
  | nodes ns =>
    rw [hcont] at hrun
    rcases foldNodes_mem ns me.user me.device ez [] out p hrun hp with h | h
    · cases h
    · obtain ⟨node, hnode, item, hitem, parts, hdec, c, hc, hpe, hcond⟩ := h
      refine ⟨((alook item.attrs "jid").getD "", c.tag, c.attrs), ?_, ?_⟩
      · unfold deviceDescriptors
        rw [hcont]
        simp only [nodeChildren, List.mem_flatMap, List.mem_map]
        exact ⟨node, hnode, item, hitem, c, hc, rfl⟩
      · exact ⟨parts, hdec, hpe, hcond⟩

/-- C8: every pair returned by `extractDeviceJids(resp, myJid, true)` has a
non-zero device number, is not the calling account's own `(user, device)`,
and stems from a `<device>` descriptor in the response carrying a non-empty
`key-index` attribute. -/
theorem extractDeviceJids_excludeZero_props (resp : BinaryNode) (myJid : String)
    (me : JidParts) (out : List JidWithDevice)
    (hme : jidDecode myJid = some me)
    (hrun : extractDeviceJids resp myJid true = some out) :
    ∀ p ∈ out,
      p.device ≠ JsNum.num 0 ∧
      ¬(p.user = me.user ∧ jsStrictEq me.device p.device = true) ∧
      ∃ e ∈ deviceDescriptors resp, e.2.1 = "device" ∧
        (jidDecode e.1).map JidParts.user = some p.user ∧
        jsPlus (alook e.2.2 "id") = p.device ∧
        truthyStr (alook e.2.2 "key-index") = true := by
  intro p hp
  obtain ⟨e, he, parts, hdec, hpe, hcond⟩ :=
    extractDeviceJids_mem resp myJid true me out p hme hrun hp
  simp only [deviceKeepCond] at hcond
  obtain ⟨htag, hz, hmine, hki⟩ := hcond
  have hz' : jsStrictEq (jsPlus (alook e.2.2 "id")) (JsNum.num 0) = false := by
    rcases hz with h | h
    · cases h
    · exact h
  have hki' : truthyStr (alook e.2.2 "key-index") = true := by
    rcases hki with h | h
    · rw [h] at hz'
      cases hz'
    · exact h
  subst hpe
  refine ⟨?_, ?_, e, he, htag, ?_, rfl, hki'⟩
  · intro heq
    have heq' : jsPlus (alook e.2.2 "id") = JsNum.num 0 := heq
    rw [heq'] at hz'
    simp [jsStrictEq] at hz'
  · rintro ⟨hu, hd⟩
    rcases hmine with h | h
    · exact h hu.symm
    · have hd' : jsStrictEq me.device (jsPlus (alook e.2.2 "id")) = true := hd
      rw [hd'] at h
      cases h
  · rw [hdec]
    rfl

/-- C8 witness: a response with one zero device and one keyed device for
user `7`, with own JID `9:2@s.whatsapp.net`. -/
theorem extractDeviceJids_excludeZero_props_witness :
    jidDecode "9:2@s.whatsapp.net" = some ⟨"9", JsNum.num 2, "s.whatsapp.net"⟩ ∧
    extractDeviceJids cxDeviceResp "9:2@s.whatsapp.net" true =
      some [⟨"7", JsNum.num 1⟩] ∧
    (∀ p ∈ [(⟨"7", JsNum.num 1⟩ : JidWithDevice)],
      p.device ≠ JsNum.num 0 ∧
      ¬(p.user = (⟨"9", JsNum.num 2, "s.whatsapp.net"⟩ : JidParts).user ∧
        jsStrictEq (⟨"9", JsNum.num 2, "s.whatsapp.net"⟩ : JidParts).device p.device = true) ∧
      ∃ e ∈ deviceDescriptors cxDeviceResp, e.2.1 = "device" ∧
        (jidDecode e.1).map JidParts.user = some p.user ∧
        jsPlus (alook e.2.2 "id") = p.device ∧
        truthyStr (alook e.2.2 "key-index") = true) :=
  ⟨by decide, by decide,
    extractDeviceJids_excludeZero_props cxDeviceResp "9:2@s.whatsapp.net"
      ⟨"9", JsNum.num 2, "s.whatsapp.net"⟩ [⟨"7", JsNum.num 1⟩] (by decide) (by decide)⟩

end Baileys
